import Mathlib

/-!
Shallow embedding of the `BookCollection` class of `library_ui.py` (a personal
library manager).  A book is the six-field dict built by `add_book`; the
collection state is the in-memory `book_list` together with the storage file
`books_data.json`.  Python str.lower is modelled character-wise, the JSON text
on disk at the level of parsed JSON trees (the json module round-trips trees
through their text form), and `datetime.now().strftime("%Y-%m-%d")` as an
explicit `today` parameter.
-/

/-- A book record: the six keys every book dict carries (exactly the keys
`add_book` constructs). -/
structure Book where
  title : String
  author : String
  year : String
  genre : String
  read : Bool
  added_date : String
  deriving DecidableEq

/-- A patch dict passed to `update_book`: any subset of the six book keys may
be present, and Python dict.update overwrites exactly the present ones. -/
structure Patch where
  title : Option String
  author : Option String
  year : Option String
  genre : Option String
  read : Option Bool
  added_date : Option String
  deriving DecidableEq

/-- Parsed JSON values: what Python json.load can return. -/
inductive Json where
  | null : Json
  | bool : Bool → Json
  | num : Int → Json
  | str : String → Json
  | arr : List Json → Json
  | obj : List (String × Json) → Json

/-- The storage file `books_data.json` as seen by `read_from_file`: absent
(open raises FileNotFoundError), present but not syntactically valid JSON
(json.load raises json.JSONDecodeError), or present and parsing to a JSON
value. -/
inductive FileContent where
  | absent : FileContent
  | malformed : FileContent
  | json : Json → FileContent

/-- `BookCollection.read_from_file`: returns the parsed JSON value, or the
empty list when opening or parsing raises FileNotFoundError or
JSONDecodeError.  The code performs no shape check on the parsed value. -/
def read_from_file : FileContent → Json
  | FileContent.absent => Json.arr []
  | FileContent.malformed => Json.arr []
  | FileContent.json j => j

/-- The JSON object denoted by one book dict (the keys in the order
`add_book` creates them). -/
def bookToJson (b : Book) : Json :=
  Json.obj [("title", Json.str b.title), ("author", Json.str b.author),
    ("year", Json.str b.year), ("genre", Json.str b.genre),
    ("read", Json.bool b.read), ("added_date", Json.str b.added_date)]

/-- The JSON value `json.dump(self.book_list, file, indent=4)` serializes. -/
def booksToJson (bs : List Book) : Json := Json.arr (bs.map bookToJson)

/-- `BookCollection.save_to_file`: overwrites the storage file with the
serialized book list. -/
def save_to_file (bs : List Book) : FileContent :=
  FileContent.json (booksToJson bs)

/-- Reads one book back out of a JSON object, field for field: the partial
inverse of `bookToJson`, used to state the persistence round trip. -/
def jsonToBook : Json → Option Book
  | Json.obj [("title", Json.str t), ("author", Json.str a),
      ("year", Json.str y), ("genre", Json.str g),
      ("read", Json.bool r), ("added_date", Json.str d)] =>
    some ⟨t, a, y, g, r, d⟩
  | _ => none

/-- Reads a list of books back out of a list of JSON values. -/
def jsonBooksAux : List Json → Option (List Book)
  | [] => some []
  | j :: rest =>
    match jsonToBook j, jsonBooksAux rest with
    | some b, some bs => some (b :: bs)
    | _, _ => none

/-- Reads a whole collection back out of a JSON value. -/
def jsonToBooks : Json → Option (List Book)
  | Json.arr js => jsonBooksAux js
  | _ => none

/-- The mutable state of a `BookCollection`: the in-memory `book_list` and
the storage file it saves to. -/
structure LibState where
  book_list : List Book
  file : FileContent

/-- Python str.lower, modelled character-wise. -/
def lowerStr (s : String) : String := String.mk (s.data.map Char.toLower)

/-- `BookCollection.add_book(title, author, year, genre, read)`: builds the
new book dict with `added_date` set to the current date (the strftime result,
passed here as `today`), appends it and saves.  No validation, no failure. -/
def add_book (s : LibState) (title author year genre : String) (rd : Bool)
    (today : String) : LibState :=
  let new_book : Book := ⟨title, author, year, genre, rd, today⟩
  let books := s.book_list ++ [new_book]
  ⟨books, save_to_file books⟩

/-- `BookCollection.delete_book(title)`: keeps exactly the books whose
lower-cased title differs from the lower-cased argument, then saves
unconditionally. -/
def delete_book (s : LibState) (title : String) : LibState :=
  let books := s.book_list.filter (fun b => lowerStr b.title != lowerStr title)
  ⟨books, save_to_file books⟩

/-- Python `book.update(updated_data)` on a book dict: every key present in
the patch overwrites the corresponding field, `added_date` included. -/
def applyPatch (b : Book) (p : Patch) : Book :=
  ⟨p.title.getD b.title, p.author.getD b.author, p.year.getD b.year,
    p.genre.getD b.genre, p.read.getD b.read, p.added_date.getD b.added_date⟩

/-- The scan loop of `update_book`: patches the first book whose lower-cased
title equals the lower-cased original title, or returns none when no book
matches. -/
def updateFirst (orig : String) (p : Patch) : List Book → Option (List Book)
  | [] => none
  | b :: rest =>
    if lowerStr b.title = lowerStr orig then some (applyPatch b p :: rest)
    else (updateFirst orig p rest).map (fun l => b :: l)

/-- `BookCollection.update_book(original_title, updated_data)`: patches the
first case-insensitive title match in place and saves, returning True; when
no book matches it falls through to `return False` without saving. -/
def update_book (s : LibState) (original_title : String) (p : Patch) :
    LibState × Bool :=
  match updateFirst original_title p s.book_list with
  | some books => (⟨books, save_to_file books⟩, true)
  | none => (s, false)

/-- needle is a prefix of hay (on character lists). -/
def isPrefixOfL : List Char → List Char → Bool
  | [], _ => true
  | _ :: _, [] => false
  | c :: cs, d :: ds => c == d && isPrefixOfL cs ds

/-- The Python substring test `needle in hay` on character lists. -/
def containsSubL : List Char → List Char → Bool
  | [], needle => needle.isEmpty
  | c :: t, needle => isPrefixOfL needle (c :: t) || containsSubL t needle

/-- The Python substring test `needle in hay` on strings. -/
def strContainsL (hay needle : String) : Bool :=
  containsSubL hay.data needle.data

/-- `BookCollection.search_books(search_term="")`: the full list when the
term is empty (Python falsiness of the empty string), otherwise the books
whose lower-cased title or author contains the lower-cased term as a
substring.  A pure read: no state is touched. -/
def search_books (s : LibState) (search_term : String) : List Book :=
  if search_term = "" then s.book_list
  else s.book_list.filter (fun b =>
    strContainsL (lowerStr b.title) (lowerStr search_term) ||
    strContainsL (lowerStr b.author) (lowerStr search_term))

/-- The dict returned by `get_reading_stats`; `completion_rate` is a Python
float, modelled as an exact rational. -/
structure Stats where
  total : Nat
  read : Nat
  unread : Nat
  completion_rate : Rat

/-- `BookCollection.get_reading_stats()`. -/
def get_reading_stats (s : LibState) : Stats :=
  let total := s.book_list.length
  let rd := s.book_list.countP (fun b => b.read)
  ⟨total, rd, total - rd,
    if 0 < total then (rd : Rat) / (total : Rat) * 100 else 0⟩

/-- One step of the `genres[genre] = genres.get(genre, 0) + 1` loop, with the
insertion-ordered Python dict modelled as an association list. -/
def bumpGenre : List (String × Nat) → String → List (String × Nat)
  | [], g => [(g, 1)]
  | (k, n) :: rest, g =>
    if k = g then (k, n + 1) :: rest else (k, n) :: bumpGenre rest g

/-- `BookCollection.get_genre_distribution()`: occurrence counts of the exact
genre strings, keys in first-appearance order. -/
def get_genre_distribution (s : LibState) : List (String × Nat) :=
  s.book_list.foldl (fun genres b => bumpGenre genres b.genre) []

/-- `genres.get(g, 0)` on the modelled dict. -/
def genreCount : List (String × Nat) → String → Nat
  | [], _ => 0
  | (k, n) :: rest, g => if k = g then n else genreCount rest g

/-! ### Helper lemmas -/

theorem isPrefixOfL_iff (needle hay : List Char) :
    isPrefixOfL needle hay = true ↔ ∃ rest, hay = needle ++ rest := by
  induction needle generalizing hay with
  | nil => simp [isPrefixOfL]
  | cons c cs ih =>
    cases hay with
    | nil => simp [isPrefixOfL]
    | cons d ds =>
      simp only [isPrefixOfL, Bool.and_eq_true, beq_iff_eq, ih,
        List.cons_append]
      constructor
      · rintro ⟨rfl, rest, rfl⟩
        exact ⟨rest, rfl⟩
      · rintro ⟨rest, h⟩
        injection h with h1 h2
        exact ⟨h1.symm, rest, h2⟩

theorem containsSubL_iff (hay needle : List Char) :
    containsSubL hay needle = true ↔
      ∃ pre post, hay = pre ++ needle ++ post := by
  induction hay with
  | nil =>
    simp only [containsSubL, List.isEmpty_iff]
    constructor
    · intro h
      exact ⟨[], [], by simp [h]⟩
    · rintro ⟨pre, post, h⟩
      exact (List.append_eq_nil.mp (List.append_eq_nil.mp h.symm).1).2
  | cons c t ih =>
    simp only [containsSubL, Bool.or_eq_true, ih, isPrefixOfL_iff]
    constructor
    · rintro (⟨rest, h⟩ | ⟨pre, post, h⟩)
      · exact ⟨[], rest, by simp [h]⟩
      · exact ⟨c :: pre, post, by simp [h]⟩
    · rintro ⟨pre, post, h⟩
      cases pre with
      | nil =>
        left
        exact ⟨post, by simpa using h⟩
      | cons d pre2 =>
        right
        simp only [List.cons_append] at h
        injection h with h1 h2
        exact ⟨pre2, post, h2⟩

theorem containsSubL_self (l : List Char) : containsSubL l l = true :=
  (containsSubL_iff l l).mpr ⟨[], [], by simp⟩

theorem updateFirst_eq_none (orig : String) (p : Patch) :
    ∀ bs : List Book, (∀ b ∈ bs, lowerStr b.title ≠ lowerStr orig) →
      updateFirst orig p bs = none := by
  intro bs
  induction bs with
  | nil => intro _; rfl
  | cons b rest ih =>
    intro h
    have hb : lowerStr b.title ≠ lowerStr orig := h b (by simp)
    have hrest := ih (fun b2 hb2 => h b2 (by simp [hb2]))
    simp [updateFirst, hb, hrest]

theorem updateFirst_decomp (orig : String) (p : Patch) :
    ∀ pre (b : Book) post,
      (∀ b2 ∈ pre, lowerStr b2.title ≠ lowerStr orig) →
      lowerStr b.title = lowerStr orig →
      updateFirst orig p (pre ++ b :: post)
        = some (pre ++ applyPatch b p :: post) := by
  intro pre
  induction pre with
  | nil =>
    intro b post _ hb
    simp [updateFirst, hb]
  | cons b0 pre2 ih =>
    intro b post hpre hb
    have h0 : lowerStr b0.title ≠ lowerStr orig := hpre b0 (by simp)
    simp [updateFirst, h0, ih b post (fun b2 hb2 => hpre b2 (by simp [hb2])) hb]

theorem updateFirst_added_date (orig : String) (p : Patch)
    (hp : p.added_date = none) :
    ∀ bs bs2, updateFirst orig p bs = some bs2 →
      bs2.map Book.added_date = bs.map Book.added_date := by
  intro bs
  induction bs with
  | nil =>
    intro bs2 h
    simp [updateFirst] at h
  | cons b rest ih =>
    intro bs2 h
    by_cases hb : lowerStr b.title = lowerStr orig
    · simp only [updateFirst, if_pos hb, Option.some.injEq] at h
      subst h
      simp [applyPatch, hp]
    · simp only [updateFirst, if_neg hb, Option.map_eq_some'] at h
      obtain ⟨l, hl, rfl⟩ := h
      simp [ih l hl]

theorem jsonToBook_encode (b : Book) : jsonToBook (bookToJson b) = some b :=
  rfl

theorem jsonBooksAux_encode :
    ∀ bs : List Book, jsonBooksAux (bs.map bookToJson) = some bs := by
  intro bs
  induction bs with
  | nil => rfl
  | cons b rest ih => simp [jsonBooksAux, jsonToBook_encode, ih]

theorem genreCount_bumpGenre (genres : List (String × Nat)) (g g2 : String) :
    genreCount (bumpGenre genres g2) g
      = genreCount genres g + (if g2 = g then 1 else 0) := by
  induction genres with
  | nil => simp [bumpGenre, genreCount]
  | cons kv rest ih =>
    obtain ⟨k, n⟩ := kv
    by_cases hk : k = g2
    · subst hk
      by_cases hg : k = g
      · subst hg
        simp [bumpGenre, genreCount]
      · simp [bumpGenre, genreCount, hg]
    · by_cases hg : k = g
      · subst hg
        have hgk : g2 ≠ k := fun h => hk h.symm
        simp [bumpGenre, genreCount, hk, hgk]
      · simp [bumpGenre, genreCount, hk, hg, ih]

theorem genreCount_foldl (g : String) :
    ∀ (bs : List Book) (acc : List (String × Nat)),
      genreCount (bs.foldl (fun genres b => bumpGenre genres b.genre) acc) g
        = genreCount acc g + bs.countP (fun b => b.genre == g) := by
  intro bs
  induction bs with
  | nil => intro acc; simp
  | cons b rest ih =>
    intro acc
    simp only [List.foldl_cons, List.countP_cons, ih, genreCount_bumpGenre]
    by_cases h : b.genre = g
    · simp only [h, beq_self_eq_true, if_true]
      omega
    · simp [h]

/-! ### Concrete fixtures -/

def bookA : Book := ⟨"Dune", "Herbert", "1965", "Sci-Fi", false, "2024-01-01"⟩

def bookB : Book := ⟨"Moby Dick", "Melville", "1851", "Novel", true, "2024-02-02"⟩

def S1 : LibState := ⟨[bookA, bookB], save_to_file [bookA, bookB]⟩

def P1 : Patch := ⟨some "Moby-Dick", none, none, none, some false, none⟩

def patchDate : Patch := ⟨none, none, none, none, none, some "1999-09-09"⟩

def S10 : LibState := ⟨[bookA], FileContent.malformed⟩

/-! ### Claims -/

/-- C1: `update_book` patches the first case-insensitive title match in place
(every field present in the patch, title included), saves the patched list
and returns true; when no book matches it returns false and leaves the whole
state — book list and storage file — untouched, performing no save. -/
theorem C1_update_first_match (s : LibState) (orig : String) (p : Patch) :
    ((∀ b ∈ s.book_list, lowerStr b.title ≠ lowerStr orig) →
      update_book s orig p = (s, false)) ∧
    (∀ pre (b : Book) post, s.book_list = pre ++ b :: post →
      (∀ b2 ∈ pre, lowerStr b2.title ≠ lowerStr orig) →
      lowerStr b.title = lowerStr orig →
      update_book s orig p =
        (⟨pre ++ applyPatch b p :: post,
          save_to_file (pre ++ applyPatch b p :: post)⟩, true)) := by
  constructor
  · intro h
    simp [update_book, updateFirst_eq_none orig p s.book_list h]
  · intro pre b post hdec hpre hb
    simp [update_book, hdec, updateFirst_decomp orig p pre b post hpre hb]

/-- C1 witness: in a two-book state, updating under the differently cased
title of the second book patches exactly that book and saves. -/
theorem C1_witness :
    update_book S1 "MOBY DICK" P1 =
      (⟨[bookA, applyPatch bookB P1],
        save_to_file [bookA, applyPatch bookB P1]⟩, true) :=
  (C1_update_first_match S1 "MOBY DICK" P1).2 [bookA] bookB [] rfl
    (by decide) (by decide)

/-- C2: `delete_book` removes exactly the books whose title matches
case-insensitively, keeps the survivors in collection order, is a silent
no-op on the book list when nothing matches, and calling it twice equals
calling it once (on the whole state). -/
theorem C2_delete_all_matches (s : LibState) (t : String) :
    (∀ b, b ∈ (delete_book s t).book_list ↔
      b ∈ s.book_list ∧ lowerStr b.title ≠ lowerStr t) ∧
    ((delete_book s t).book_list).Sublist s.book_list ∧
    ((∀ b ∈ s.book_list, lowerStr b.title ≠ lowerStr t) →
      (delete_book s t).book_list = s.book_list) ∧
    delete_book (delete_book s t) t = delete_book s t := by
  refine ⟨?_, ?_, ?_, ?_⟩
  · intro b
    simp [delete_book, List.mem_filter]
  · simp only [delete_book]
    exact List.filter_sublist s.book_list
  · intro h
    simp only [delete_book]
    exact List.filter_eq_self.mpr (fun b hb => by simpa using h b hb)
  · simp [delete_book, List.filter_filter]

/-- C2 witness: deleting a title no book carries leaves the two-book list
unchanged. -/
theorem C2_witness : (delete_book S1 "zzz").book_list = S1.book_list :=
  (C2_delete_all_matches S1 "zzz").2.2.1 (by decide)

/-- C3: for every state and all field values (empty ones included — the
operation validates nothing and cannot fail), `add_book` appends exactly one
book to the end of the list carrying the exact given fields with `added_date`
set to the current date; the new book then appears in `search_books` of its
title, and its `added_date` is non-empty whenever the date string is (which
the "%Y-%m-%d" format always produces). -/
theorem C3_add_then_found (s : LibState)
    (title author year genre today : String) (rd : Bool) (h : today ≠ "") :
    (add_book s title author year genre rd today).book_list
      = s.book_list ++ [⟨title, author, year, genre, rd, today⟩] ∧
    (⟨title, author, year, genre, rd, today⟩ : Book)
      ∈ search_books (add_book s title author year genre rd today) title ∧
    (⟨title, author, year, genre, rd, today⟩ : Book).added_date ≠ "" := by
  refine ⟨rfl, ?_, h⟩
  by_cases ht : title = ""
  · subst ht
    simp [search_books, add_book]
  · simp only [search_books, if_neg ht]
    refine List.mem_filter.mpr ⟨by simp [add_book], ?_⟩
    have hc : strContainsL (lowerStr title) (lowerStr title) = true :=
      containsSubL_self (lowerStr title).data
    simp [hc]

/-- C3 witness: adding a concrete book to the two-book state appends it, it
is found by searching its title, and its added date is non-empty. -/
theorem C3_witness :
    (add_book S1 "Emma" "Austen" "1815" "" false "2026-10-12").book_list
      = S1.book_list ++ [⟨"Emma", "Austen", "1815", "", false, "2026-10-12"⟩] ∧
    (⟨"Emma", "Austen", "1815", "", false, "2026-10-12"⟩ : Book)
      ∈ search_books (add_book S1 "Emma" "Austen" "1815" "" false "2026-10-12")
          "Emma" ∧
    (⟨"Emma", "Austen", "1815", "", false, "2026-10-12"⟩ : Book).added_date
      ≠ "" :=
  C3_add_then_found S1 "Emma" "Austen" "1815" "" "2026-10-12" false (by decide)

/-- C4: searching with the empty term returns the full collection unchanged
in order; with a non-empty term it returns exactly the books whose
lower-cased title or author contains the lower-cased term as a substring, in
collection order; the result is always an in-order sublist of the full
collection (search is a pure read and mutates nothing). -/
theorem C4_search_filter (s : LibState) (term : String) :
    search_books s "" = s.book_list ∧
    (term ≠ "" → ∀ b, b ∈ search_books s term ↔
      b ∈ s.book_list ∧
        ((∃ pre post,
            (lowerStr b.title).data = pre ++ (lowerStr term).data ++ post) ∨
         (∃ pre post,
            (lowerStr b.author).data = pre ++ (lowerStr term).data ++ post))) ∧
    (search_books s term).Sublist (search_books s "") := by
  refine ⟨rfl, ?_, ?_⟩
  · intro ht b
    simp only [search_books, if_neg ht, List.mem_filter, Bool.or_eq_true,
      strContainsL, containsSubL_iff]
  · by_cases ht : term = ""
    · subst ht
      exact List.Sublist.refl _
    · simp only [search_books, if_neg ht]
      exact List.filter_sublist s.book_list

/-- C4 witness: searching "du" in the two-book state finds the book titled
"Dune" through the substring characterization. -/
theorem C4_witness : bookA ∈ search_books S1 "du" :=
  (((C4_search_filter S1 "du").2.1 (by decide) bookA)).mpr
    ⟨by decide, Or.inl ⟨[], ['n', 'e'], by decide⟩⟩

/-- C5: `get_reading_stats` returns total = collection size, read = number of
books marked read, unread = total − read (so total = read + unread always),
and a completion rate of read/total·100 for a non-empty collection and 0 for
the empty one. -/
theorem C5_stats (s : LibState) :
    (get_reading_stats s).total = s.book_list.length ∧
    (get_reading_stats s).read = s.book_list.countP (fun b => b.read) ∧
    (get_reading_stats s).unread
      = (get_reading_stats s).total - (get_reading_stats s).read ∧
    (get_reading_stats s).total
      = (get_reading_stats s).read + (get_reading_stats s).unread ∧
    (0 < (get_reading_stats s).total →
      (get_reading_stats s).completion_rate
        = ((get_reading_stats s).read : Rat)
            / ((get_reading_stats s).total : Rat) * 100) ∧
    ((get_reading_stats s).total = 0 →
      (get_reading_stats s).completion_rate = 0) := by
  have hle : s.book_list.countP (fun b => b.read) ≤ s.book_list.length :=
    List.countP_le_length _
  refine ⟨rfl, rfl, rfl, ?_, ?_, ?_⟩
  · simp only [get_reading_stats]
    omega
  · intro h
    simp only [get_reading_stats] at h ⊢
    rw [if_pos h]
  · intro h
    simp only [get_reading_stats] at h ⊢
    rw [if_neg (by omega)]

/-- C5 witness: in the two-book state (one read), the completion rate is
read/total·100. -/
theorem C5_witness :
    (get_reading_stats S1).completion_rate
      = ((get_reading_stats S1).read : Rat)
          / ((get_reading_stats S1).total : Rat) * 100 :=
  (C5_stats S1).2.2.2.2.1 (by decide)

/-- C6: persistence round trip — saving any book list (0, 1 or many books,
empty genres included) and reading the file back yields JSON that decodes
field for field to the same list, order preserved. -/
theorem C6_save_load_roundtrip (C : List Book) :
    jsonToBooks (read_from_file (save_to_file C)) = some C :=
  jsonBooksAux_encode C

/-- C7 counterexample: a storage file holding valid JSON of the wrong shape
(the number 42) is returned as-is by `read_from_file` — not replaced by the
empty collection — because the code only catches FileNotFoundError and
JSONDecodeError, and json.load succeeds on the text "42". -/
theorem C7_counterexample :
    read_from_file (FileContent.json (Json.num 42)) = Json.num 42 ∧
    read_from_file (FileContent.json (Json.num 42)) ≠ Json.arr [] := by
  refine ⟨rfl, ?_⟩
  intro h
  simp [read_from_file] at h

/-- C7 amended: `read_from_file` never surfaces an error — it totally maps
every file state to a value — and it returns the empty collection exactly
when the file is absent, when its contents are not syntactically valid JSON,
or when the file already holds the empty array; any other well-formed JSON
value, even one that is not a list of book records, is returned unchanged. -/
theorem C7_load_fail_open (fc : FileContent) :
    (read_from_file fc = Json.arr [] ↔
      fc = FileContent.absent ∨ fc = FileContent.malformed ∨
        fc = FileContent.json (Json.arr [])) ∧
    (∀ j, fc = FileContent.json j → read_from_file fc = j) := by
  constructor
  · cases fc with
    | absent => simp [read_from_file]
    | malformed => simp [read_from_file]
    | json j =>
      simp only [read_from_file]
      constructor
      · intro h
        subst h
        exact Or.inr (Or.inr rfl)
      · rintro (h | h | h)
        · cases h
        · cases h
        · injection h
  · intro j h
    subst h
    rfl

/-- C7 witness: an absent file loads as the empty collection, and a
wrong-shape JSON file loads as its own content. -/
theorem C7_witness :
    read_from_file FileContent.absent = Json.arr [] ∧
    read_from_file (FileContent.json (Json.str "x")) = Json.str "x" :=
  ⟨(C7_load_fail_open FileContent.absent).1.mpr (Or.inl rfl),
   (C7_load_fail_open (FileContent.json (Json.str "x"))).2 (Json.str "x") rfl⟩

/-- C8 counterexample: `update_book` with a patch dict that contains the key
`added_date` overwrites it (Python dict.update overwrites every present
key), so the surviving book changes its `added_date` from "2024-01-01" to
"1999-09-09" — `added_date` is not immutable under arbitrary patches. -/
theorem C8_counterexample :
    List.map Book.added_date
        (update_book ⟨[bookA], save_to_file [bookA]⟩ "dune" patchDate).1.book_list
      = ["1999-09-09"] ∧
    [bookA].map Book.added_date = ["2024-01-01"] := by
  constructor <;> decide

/-- C8 amended: `added_date` is never changed after creation by any operation
whose patch does not itself carry the `added_date` key (the edit form of the
app never sends one): update then preserves the dates of all books, the
survivors of a delete keep their dates, and add only appends the new date. -/
theorem C8_added_date_stable (s : LibState)
    (orig t title author year genre today : String) (rd : Bool) (p : Patch)
    (h : p.added_date = none) :
    (update_book s orig p).1.book_list.map Book.added_date
      = s.book_list.map Book.added_date ∧
    ((delete_book s t).book_list.map Book.added_date).Sublist
      (s.book_list.map Book.added_date) ∧
    (add_book s title author year genre rd today).book_list.map Book.added_date
      = s.book_list.map Book.added_date ++ [today] := by
  refine ⟨?_, ?_, ?_⟩
  · cases hu : updateFirst orig p s.book_list with
    | none => simp [update_book, hu]
    | some bs2 =>
      simp [update_book, hu, updateFirst_added_date orig p h s.book_list bs2 hu]
  · exact List.Sublist.map Book.added_date (List.filter_sublist s.book_list)
  · simp [add_book]

/-- C8 amended witness: an update patch without the `added_date` key leaves
every added date in the two-book state unchanged. -/
theorem C8_witness :
    (update_book S1 "dune" P1).1.book_list.map Book.added_date
      = S1.book_list.map Book.added_date :=
  (C8_added_date_stable S1 "dune" "z" "T" "A" "Y" "G" "2026-10-12" false P1
    rfl).1

/-- C9: the genre distribution maps each genre string g — compared verbatim,
case-sensitively and untrimmed, the empty string being its own bucket — to
exactly the number of books whose genre equals g. -/
theorem C9_genre_distribution (s : LibState) (g : String) :
    genreCount (get_genre_distribution s) g
      = s.book_list.countP (fun b => b.genre == g) := by
  simpa [get_genre_distribution, genreCount]
    using genreCount_foldl g s.book_list []

/-- C10: delete always rewrites the storage file to the post-filter list —
even when nothing matched and the in-memory list is unchanged — whereas
update with no matching title leaves the whole state, file included,
untouched: the two not-found paths differ in their persistence effect. -/
theorem C10_delete_saves (s : LibState) (t orig : String) (p : Patch) :
    (delete_book s t).file = save_to_file ((delete_book s t).book_list) ∧
    ((∀ b ∈ s.book_list, lowerStr b.title ≠ lowerStr t) →
      (delete_book s t).book_list = s.book_list ∧
      (delete_book s t).file = save_to_file s.book_list) ∧
    ((∀ b ∈ s.book_list, lowerStr b.title ≠ lowerStr orig) →
      (update_book s orig p).1 = s) := by
  refine ⟨rfl, ?_, ?_⟩
  · intro h
    have hf : s.book_list.filter
        (fun b => lowerStr b.title != lowerStr t) = s.book_list :=
      List.filter_eq_self.mpr (fun b hb => by simpa using h b hb)
    constructor
    · simpa [delete_book] using hf
    · simp [delete_book, hf]
  · intro h
    simp [update_book, updateFirst_eq_none orig p s.book_list h]

/-- C10 witness: deleting an unmatched title from a state whose file was
malformed leaves the book list unchanged yet rewrites the file to the saved
list (the file content changes although the collection does not). -/
theorem C10_witness :
    (delete_book S10 "zzz").book_list = S10.book_list ∧
    (delete_book S10 "zzz").file = save_to_file S10.book_list :=
  (C10_delete_saves S10 "zzz" "x" P1).2.1 (by decide)
